import Mathlib

/-!
Verification development for the SDL3 sinusoidal synthesizer (src/sound.c).

The C program's floating-point `double` arithmetic is idealized as real
arithmetic (the spec itself describes `phase` and `frequency` as real
numbers).  Machine 16-bit samples are modelled as integers together with the
C truncation-toward-zero semantics of the `(Sint16)` cast; the proofs show
the values fit in 16 bits.  Fallible external calls (`malloc`,
`SDL_PutAudioStreamData`, the SDL init calls) are modelled by explicit
boolean success inputs, so every behavior of the C control flow is covered.
-/

namespace SoundC

/-- `#define SAMPLE_RATE 44100` (sound.c line 12). -/
def SAMPLE_RATE : ℕ := 44100

/-- `#define AMPLITUDE 28000` (sound.c line 13). -/
def AMPLITUDE : ℕ := 28000

/-- `#define FREQUENCY_A4 440.0` (sound.c line 14). -/
noncomputable def FREQUENCY_A4 : ℝ := 440

/-- The mutable globals of sound.c that the audio path touches:
`note_on`, `phase`, `frequency`, `note_name` (lines 62-65) and the two
counters of `DebugStats` used by the claims,
`audio_samples_generated` and `audio_buffer_underruns` (lines 56-57). -/
structure SynthState where
  note_on : Bool
  phase : ℝ
  frequency : ℝ
  note_name : String
  samples_generated : ℕ
  underruns : ℕ

/-- C truncation-toward-zero semantics of the cast `(Sint16)(double)`:
round toward zero. -/
noncomputable def c_trunc (x : ℝ) : ℤ :=
  if 0 ≤ x then ⌊x⌋ else ⌈x⌉

/-- One sample value while the note is gated on:
`(Sint16)(AMPLITUDE * sin(phase))` (sound.c line 210). -/
noncomputable def sampleOf (p : ℝ) : ℤ :=
  c_trunc ((AMPLITUDE : ℝ) * Real.sin p)

/-- The wraparound step after advancing the phase:
`if (phase >= 2.0 * M_PI) phase -= 2.0 * M_PI;` (sound.c lines 212-215). -/
noncomputable def phase_wrap (q : ℝ) : ℝ :=
  if 2 * Real.pi ≤ q then q - 2 * Real.pi else q

/-- The sample-generation loop of `generate_audio_samples`
(sound.c lines 206-221): given the gating flag, the per-sample phase
increment and the current phase, produce the final phase and the list of
samples written to the buffer.  While gated on, each sample is
`AMPLITUDE * sin(phase)` truncated, then the phase advances and wraps;
while gated off, the sample is `0` and the phase is untouched. -/
noncomputable def genLoop (noteOn : Bool) (inc : ℝ) : ℕ → ℝ → ℝ × List ℤ
  | 0, p => (p, [])
  | n + 1, p =>
    if noteOn then
      let r := genLoop noteOn inc n (phase_wrap (p + inc))
      (r.1, sampleOf p :: r.2)
    else
      let r := genLoop noteOn inc n p
      (r.1, (0 : ℤ) :: r.2)

/-- Outcome of one `generate_audio_samples` call: the `malloc` failure
early return (lines 197-202), or the result of `SDL_PutAudioStreamData`
(lines 224-235) on the generated buffer. -/
inductive GenOutcome where
  | allocFailed : GenOutcome
  | pushSuccess : List ℤ → GenOutcome
  | pushFailed : List ℤ → GenOutcome
deriving DecidableEq

/-- The samples synthesized into the buffer by a call, read off its
outcome (empty when the buffer allocation failed and the loop never ran). -/
def producedSamples : GenOutcome → List ℤ
  | GenOutcome.allocFailed => []
  | GenOutcome.pushSuccess buf => buf
  | GenOutcome.pushFailed buf => buf

/-- `generate_audio_samples(num_samples)` (sound.c lines 188-247), with the
success of `malloc` and of `SDL_PutAudioStreamData` as explicit inputs and
the sink's queued byte depth threaded through.  On allocation failure the
function returns at once (line 201): no sample loop, no push, no counter
update.  Otherwise the loop runs with
`phase_increment = 2π * frequency / SAMPLE_RATE` (line 204), the buffer of
`num * sizeof(Sint16)` bytes is pushed, and only on push success is
`audio_samples_generated += num_samples` executed (line 231). -/
noncomputable def generate_audio_samples (allocOk pushOk : Bool)
    (s : SynthState) (q : ℕ) (num : ℕ) : SynthState × ℕ × GenOutcome :=
  if allocOk then
    let inc := 2 * Real.pi * s.frequency / (SAMPLE_RATE : ℝ)
    let r := genLoop s.note_on inc num s.phase
    if pushOk then
      ({ s with phase := r.1, samples_generated := s.samples_generated + num }, q + 2 * num, GenOutcome.pushSuccess r.2)
    else
      ({ s with phase := r.1 }, q, GenOutcome.pushFailed r.2)
  else
    (s, q, GenOutcome.allocFailed)

/-- The fill step of the control loop (sound.c lines 451-457): read the
queued byte depth; when it is below 8192 bytes, generate and push one batch
of 2048 samples, otherwise do nothing.  `none` records that no generation
was attempted. -/
noncomputable def feeder_tick (allocOk pushOk : Bool)
    (s : SynthState) (q : ℕ) : SynthState × ℕ × Option GenOutcome :=
  if q < 8192 then
    let r := generate_audio_samples allocOk pushOk s q 2048
    (r.1, r.2.1, some r.2.2)
  else
    (s, q, none)

/-- `validate_audio_stream` (sound.c lines 126-146) with the observed
queued depth as input (an `int` from `SDL_GetAudioStreamQueued`, negative
on error).  The underrun counter is incremented exactly when the observed
depth is zero while a note is gated on; nothing else is modified. -/
def validate_audio_stream (obs : ℤ) (s : SynthState) : SynthState :=
  if obs = 0 ∧ s.note_on = true then
    { s with underruns := s.underruns + 1 }
  else
    s

/-- The keys the event switch distinguishes (sound.c lines 408-439). -/
inductive Key where
  | a : Key
  | s : Key
  | d : Key
  | f : Key
  | escape : Key
  | other : Key
deriving DecidableEq

/-- The events the main loop distinguishes (sound.c lines 401-448). -/
inductive Event where
  | quit : Event
  | keyDown : Key → Event
  | keyUp : Key → Event
deriving DecidableEq

/-- The event dispatch of the main loop (sound.c lines 401-448): quit and
escape clear `running`; each mapped key-down overwrites `frequency`,
`note_name` and sets `note_on`; any key-up clears `note_on`. -/
noncomputable def handle_event (e : Event) (s : SynthState) (running : Bool) :
    SynthState × Bool :=
  match e with
  | Event.quit => (s, false)
  | Event.keyDown k =>
    match k with
    | Key.a =>
      ({ s with frequency := FREQUENCY_A4, note_name := "A", note_on := true },
        running)
    | Key.s =>
      ({ s with frequency := FREQUENCY_A4 * (2 : ℝ) ^ ((1 : ℝ) / 12), note_name := "A#", note_on := true }, running)
    | Key.d =>
      ({ s with frequency := FREQUENCY_A4 * (2 : ℝ) ^ ((2 : ℝ) / 12), note_name := "B", note_on := true }, running)
    | Key.f =>
      ({ s with frequency := FREQUENCY_A4 * (2 : ℝ) ^ ((3 : ℝ) / 12), note_name := "C", note_on := true }, running)
    | Key.escape => (s, false)
    | Key.other => (s, running)
  | Event.keyUp _ => ({ s with note_on := false }, running)

/-- The (frequency, display name) pair the key-down switch assigns to each
mapped note key, read off the switch cases (sound.c lines 410-433). -/
noncomputable def noteTable : Key → Option (ℝ × String)
  | Key.a => some (FREQUENCY_A4, "A")
  | Key.s => some (FREQUENCY_A4 * (2 : ℝ) ^ ((1 : ℝ) / 12), "A#")
  | Key.d => some (FREQUENCY_A4 * (2 : ℝ) ^ ((2 : ℝ) / 12), "B")
  | Key.f => some (FREQUENCY_A4 * (2 : ℝ) ^ ((3 : ℝ) / 12), "C")
  | Key.escape => none
  | Key.other => none

/-- The inner event-polling loop of one iteration (sound.c lines 399-449):
all pending events are processed in order, even after `running` clears. -/
noncomputable def processEvents (evs : List Event) (s : SynthState)
    (running : Bool) : SynthState × Bool :=
  evs.foldl (fun acc e => handle_event e acc.1 acc.2) (s, running)

/-- State carried across control-loop iterations: the globals, the sink's
queued byte depth, and `debug_stats.frame_count`. -/
structure LoopState where
  synth : SynthState
  queued : ℕ
  frame_count : ℕ

/-- One iteration of the main control loop (sound.c lines 395-490):
increment `frame_count`, drain the event queue, run the fill step, and
every 60th iteration run `validate_audio_stream` (lines 460-463). -/
noncomputable def loop_body (evs : List Event) (allocOk pushOk : Bool)
    (st : LoopState) (running : Bool) : LoopState × Bool :=
  let fc := st.frame_count + 1
  let er := processEvents evs st.synth running
  let ft := feeder_tick allocOk pushOk er.1 st.queued
  let s2 := if fc % 60 = 0 then validate_audio_stream (ft.2.1 : ℤ) ft.1 else ft.1
  (⟨s2, ft.2.1, fc⟩, er.2)

/-- A sequence of `generate_audio_samples` calls, each with its own
allocation/push outcome and sample count, threading the oscillator state
and the queued depth. -/
noncomputable def runGenerates (calls : List (Bool × Bool × ℕ))
    (s : SynthState) (q : ℕ) : SynthState × ℕ :=
  calls.foldl
    (fun acc c =>
      let r := generate_audio_samples c.1 c.2.1 acc.1 acc.2 c.2.2
      (r.1, r.2.1))
    (s, q)

/-- The initial values of the globals (sound.c lines 62-65, 68):
no note gated, phase 0, frequency A4, zeroed counters. -/
noncomputable def initState : SynthState :=
  ⟨false, 0, FREQUENCY_A4, "A", 0, 0⟩

/-- Success of each fallible startup call of `main`
(sound.c lines 302-387), in program order. -/
structure InitEnv where
  sdlInitOk : Bool
  openDeviceOk : Bool
  createStreamOk : Bool
  bindOk : Bool
  resumeOk : Bool
  createWindowOk : Bool
  createRendererOk : Bool

/-- The resources `main` acquires: the SDL subsystems, the audio device,
the audio stream, the window and the renderer. -/
inductive Res where
  | subsystem : Res
  | device : Res
  | stream : Res
  | window : Res
  | renderer : Res
deriving DecidableEq, Fintype

/-- Exit code together with the resources acquired and the resources
released on the way out. -/
structure MainResult where
  exitCode : ℤ
  acquired : List Res
  released : List Res

/-- The startup/shutdown control flow of `main` (sound.c lines 287-495),
abstracting the main loop (which always ends in `cleanup` and `return 0`).
Each early-exit branch mirrors the explicit release calls of the source;
`SDL_Quit` (called on every exit path that reaches it) shuts down all
initialized subsystems, which per SDL3 semantics also disposes of any
audio devices/streams and windows/renderers still alive, so releases via
`SDL_Quit` are credited to the resources still held at that point.
A failed `SDL_ResumeAudioDevice` (line 358) is only logged and does not
abort.  `argc`/`argv` are ignored (lines 290-291). -/
def main_model (env : InitEnv) (_args : List String) : MainResult :=
  if env.sdlInitOk = false then
    ⟨-1, [], []⟩
  else if env.openDeviceOk = false then
    ⟨-1, [Res.subsystem], [Res.subsystem]⟩
  else if env.createStreamOk = false then
    ⟨-1, [Res.subsystem, Res.device], [Res.device, Res.subsystem]⟩
  else if env.bindOk = false then
    ⟨-1, [Res.subsystem, Res.device, Res.stream], [Res.device, Res.stream, Res.subsystem]⟩
  else if env.createWindowOk = false then
    ⟨-1, [Res.subsystem, Res.device, Res.stream], [Res.stream, Res.device, Res.subsystem]⟩
  else if env.createRendererOk = false then
    ⟨-1, [Res.subsystem, Res.device, Res.stream, Res.window], [Res.window, Res.stream, Res.device, Res.subsystem]⟩
  else
    ⟨0, [Res.subsystem, Res.device, Res.stream, Res.window, Res.renderer], [Res.renderer, Res.window, Res.stream, Res.device, Res.subsystem]⟩

/-- While gated off, the sample loop emits zeros and leaves the phase
untouched (sound.c lines 217-220). -/
lemma genLoop_off (inc : ℝ) (n : ℕ) (p : ℝ) :
    genLoop false inc n p = (p, List.replicate n 0) := by
  induction n generalizing p with
  | zero => simp [genLoop]
  | succ n ih => simp [genLoop, ih, List.replicate_succ]

/-- The sample loop writes exactly `num_samples` entries. -/
lemma genLoop_length (b : Bool) (inc : ℝ) (n : ℕ) (p : ℝ) :
    ((genLoop b inc n p).2).length = n := by
  induction n generalizing p with
  | zero => simp [genLoop]
  | succ n ih => cases b <;> simp [genLoop, ih]

/-- One advance-and-wrap step keeps the phase in `[0, 2π)` as long as the
increment is positive and at most `2π`. -/
lemma phase_wrap_mem {p inc : ℝ} (h0 : 0 ≤ p) (h1 : p < 2 * Real.pi)
    (hi0 : 0 < inc) (hi : inc ≤ 2 * Real.pi) :
    0 ≤ phase_wrap (p + inc) ∧ phase_wrap (p + inc) < 2 * Real.pi := by
  unfold phase_wrap
  by_cases h : 2 * Real.pi ≤ p + inc
  · rw [if_pos h]
    constructor <;> linarith
  · rw [if_neg h]
    push_neg at h
    constructor <;> linarith

/-- The whole sample loop keeps the phase in `[0, 2π)`. -/
lemma genLoop_phase_mem (b : Bool) {inc : ℝ} (n : ℕ) {p : ℝ}
    (h0 : 0 ≤ p) (h1 : p < 2 * Real.pi)
    (hi0 : 0 < inc) (hi : inc ≤ 2 * Real.pi) :
    0 ≤ (genLoop b inc n p).1 ∧ (genLoop b inc n p).1 < 2 * Real.pi := by
  induction n generalizing p with
  | zero => simpa [genLoop] using And.intro h0 h1
  | succ n ih =>
    cases b with
    | false => simpa [genLoop] using ih h0 h1
    | true =>
      have hw := phase_wrap_mem h0 h1 hi0 hi
      simpa [genLoop] using ih hw.1 hw.2

/-- The C truncation never grows the magnitude past a bound. -/
lemma abs_c_trunc_le {x : ℝ} (h : |x| ≤ 28000) : |c_trunc x| ≤ 28000 := by
  rcases abs_le.mp h with ⟨hl, hu⟩
  unfold c_trunc
  by_cases h0 : 0 ≤ x
  · rw [if_pos h0]
    have hf0 : 0 ≤ ⌊x⌋ := Int.floor_nonneg.mpr h0
    have hfu : (⌊x⌋ : ℝ) ≤ 28000 := le_trans (Int.floor_le x) hu
    have hfu2 : ⌊x⌋ ≤ (28000 : ℤ) := by exact_mod_cast hfu
    rw [abs_of_nonneg hf0]
    exact hfu2
  · rw [if_neg h0]
    push_neg at h0
    have hc0 : ⌈x⌉ ≤ (0 : ℤ) := Int.ceil_le.mpr (by exact_mod_cast h0.le)
    have hcl : (-28000 : ℝ) ≤ (⌈x⌉ : ℝ) := le_trans hl (Int.le_ceil x)
    have hcl2 : (-28000 : ℤ) ≤ ⌈x⌉ := by exact_mod_cast hcl
    rw [abs_of_nonpos hc0]
    omega

/-- The real sample value is bounded by the amplitude ceiling. -/
lemma abs_amp_sin_le (p : ℝ) : |(AMPLITUDE : ℝ) * Real.sin p| ≤ 28000 := by
  have hs : |Real.sin p| ≤ 1 := abs_le.mpr ⟨Real.neg_one_le_sin p, Real.sin_le_one p⟩
  rw [abs_mul]
  have hA : |(AMPLITUDE : ℝ)| = 28000 := by norm_num [AMPLITUDE]
  rw [hA]
  nlinarith [abs_nonneg (Real.sin p)]

/-- Each emitted 16-bit sample is bounded by the amplitude ceiling. -/
lemma abs_sampleOf_le (p : ℝ) : |sampleOf p| ≤ 28000 :=
  abs_c_trunc_le (abs_amp_sin_le p)

/-- All samples of one buffer are bounded by the amplitude ceiling. -/
lemma genLoop_forall_abs (b : Bool) (inc : ℝ) (n : ℕ) (p : ℝ) :
    ((genLoop b inc n p).2).Forall (fun v : ℤ => |v| ≤ 28000) := by
  induction n generalizing p with
  | zero => simp [genLoop]
  | succ n ih =>
    cases b with
    | false => simpa [genLoop] using ih p
    | true => simpa [genLoop] using And.intro (abs_sampleOf_le p) (ih (phase_wrap (p + inc)))

/-- `generate_audio_samples` never touches gating, frequency, the note
name or the underrun counter. -/
lemma generate_fields (a p : Bool) (s : SynthState) (q n : ℕ) :
    (generate_audio_samples a p s q n).1.frequency = s.frequency ∧
    (generate_audio_samples a p s q n).1.note_on = s.note_on ∧
    (generate_audio_samples a p s q n).1.note_name = s.note_name ∧
    (generate_audio_samples a p s q n).1.underruns = s.underruns := by
  cases a <;> cases p <;> simp [generate_audio_samples]

/-- Event dispatch never touches the phase accumulator or the counters. -/
lemma handle_event_preserves (e : Event) (s : SynthState) (r : Bool) :
    ((handle_event e s r).1).phase = s.phase ∧
    ((handle_event e s r).1).underruns = s.underruns ∧
    ((handle_event e s r).1).samples_generated = s.samples_generated := by
  cases e with
  | quit => simp [handle_event]
  | keyDown k => cases k <;> simp [handle_event]
  | keyUp k => simp [handle_event]

/-- Draining the whole event queue never touches the phase accumulator or
the counters. -/
lemma processEvents_preserves (evs : List Event) (s : SynthState) (r : Bool) :
    ((processEvents evs s r).1).phase = s.phase ∧
    ((processEvents evs s r).1).underruns = s.underruns ∧
    ((processEvents evs s r).1).samples_generated = s.samples_generated := by
  induction evs generalizing s r with
  | nil => simp [processEvents]
  | cons e t ih =>
    have h1 := handle_event_preserves e s r
    have h2 := ih (handle_event e s r).1 (handle_event e s r).2
    simp only [processEvents, List.foldl_cons] at h2 ⊢
    exact ⟨h2.1.trans h1.1, h2.2.1.trans h1.2.1, h2.2.2.trans h1.2.2⟩

/-- The fill step never touches the underrun counter. -/
lemma feeder_tick_underruns (a p : Bool) (s : SynthState) (q : ℕ) :
    (feeder_tick a p s q).1.underruns = s.underruns := by
  unfold feeder_tick
  by_cases h : q < 8192
  · rw [if_pos h]
    exact (generate_fields a p s q 2048).2.2.2
  · rw [if_neg h]

/-- `validate_audio_stream` changes nothing but (possibly) the underrun
counter, and never decreases it. -/
lemma validate_fields (obs : ℤ) (s : SynthState) :
    (validate_audio_stream obs s).phase = s.phase ∧
    (validate_audio_stream obs s).note_on = s.note_on ∧
    (validate_audio_stream obs s).frequency = s.frequency ∧
    (validate_audio_stream obs s).samples_generated = s.samples_generated ∧
    s.underruns ≤ (validate_audio_stream obs s).underruns := by
  unfold validate_audio_stream
  by_cases h : obs = 0 ∧ s.note_on = true
  · rw [if_pos h]
    exact ⟨rfl, rfl, rfl, rfl, Nat.le_succ _⟩
  · rw [if_neg h]
    exact ⟨rfl, rfl, rfl, rfl, le_refl _⟩

/-- Sixth power of `2 ^ (2/12)`. -/
lemma two_rpow_sixth_eq : ((2 : ℝ) ^ ((2 : ℝ) / 12)) ^ (6 : ℕ) = 2 := by
  rw [← Real.rpow_natCast ((2 : ℝ) ^ ((2 : ℝ) / 12)) 6,
    ← Real.rpow_mul (by norm_num : (0 : ℝ) ≤ 2)]
  have h : (2 : ℝ) / 12 * ((6 : ℕ) : ℝ) = 1 := by push_cast; ring
  rw [h, Real.rpow_one]

/-- Rational bracketing of `2 ^ (2/12)`, the equal-tempered two-semitone
ratio. -/
lemma two_rpow_sixth_bounds :
    (112246 / 100000 : ℝ) < (2 : ℝ) ^ ((2 : ℝ) / 12) ∧
    (2 : ℝ) ^ ((2 : ℝ) / 12) < (112247 / 100000 : ℝ) := by
  have hcpos : (0 : ℝ) < (2 : ℝ) ^ ((2 : ℝ) / 12) :=
    Real.rpow_pos_of_pos (by norm_num) _
  have h6 := two_rpow_sixth_eq
  constructor
  · by_contra hle
    push_neg at hle
    have hp : ((2 : ℝ) ^ ((2 : ℝ) / 12)) ^ (6 : ℕ) ≤ (112246 / 100000 : ℝ) ^ (6 : ℕ) :=
      pow_le_pow_left₀ hcpos.le hle 6
    rw [h6] at hp
    norm_num at hp
  · by_contra hge
    push_neg at hge
    have hp : (112247 / 100000 : ℝ) ^ (6 : ℕ) ≤ ((2 : ℝ) ^ ((2 : ℝ) / 12)) ^ (6 : ℕ) :=
      pow_le_pow_left₀ (by norm_num) hge 6
    rw [h6] at hp
    norm_num at hp

/-- One `generate_audio_samples` call keeps the phase in `[0, 2π)` when
the frequency is positive and at most the sample rate (so the per-sample
increment lies in `(0, 2π]`). -/
lemma generate_phase_mem (a p : Bool) (s : SynthState) (q n : ℕ)
    (hf0 : 0 < s.frequency) (hf : s.frequency ≤ (SAMPLE_RATE : ℝ))
    (h0 : 0 ≤ s.phase) (h1 : s.phase < 2 * Real.pi) :
    0 ≤ (generate_audio_samples a p s q n).1.phase ∧
    (generate_audio_samples a p s q n).1.phase < 2 * Real.pi := by
  have hπ := Real.pi_pos
  have hrate : (0 : ℝ) < (SAMPLE_RATE : ℝ) := by norm_num [SAMPLE_RATE]
  have hinc0 : 0 < 2 * Real.pi * s.frequency / (SAMPLE_RATE : ℝ) := by positivity
  have hinc1 : 2 * Real.pi * s.frequency / (SAMPLE_RATE : ℝ) ≤ 2 * Real.pi := by
    rw [div_le_iff₀ hrate]
    have h := mul_le_mul_of_nonneg_left hf (by positivity : (0 : ℝ) ≤ 2 * Real.pi)
    linarith
  cases a with
  | false => simpa [generate_audio_samples] using And.intro h0 h1
  | true =>
    have hg := genLoop_phase_mem s.note_on n h0 h1 hinc0 hinc1
    cases p <;> simpa [generate_audio_samples] using hg

/-- Any sequence of `generate_audio_samples` calls keeps the phase in
`[0, 2π)`; the frequency is untouched along the way. -/
lemma runGenerates_phase_mem (calls : List (Bool × Bool × ℕ)) (s : SynthState) (q : ℕ)
    (hf0 : 0 < s.frequency) (hf : s.frequency ≤ (SAMPLE_RATE : ℝ))
    (h0 : 0 ≤ s.phase) (h1 : s.phase < 2 * Real.pi) :
    0 ≤ (runGenerates calls s q).1.phase ∧ (runGenerates calls s q).1.phase < 2 * Real.pi := by
  induction calls generalizing s q with
  | nil => simpa [runGenerates] using And.intro h0 h1
  | cons c t ih =>
    have hg := generate_phase_mem c.1 c.2.1 s q c.2.2 hf0 hf h0 h1
    have hfreq := (generate_fields c.1 c.2.1 s q c.2.2).1
    have ht := ih (generate_audio_samples c.1 c.2.1 s q c.2.2).1
      (generate_audio_samples c.1 c.2.1 s q c.2.2).2.1
      (by rw [hfreq]; exact hf0) (by rw [hfreq]; exact hf) hg.1 hg.2
    simpa [runGenerates] using ht

/-- Event dispatch keeps the frequency positive and at most the sample
rate: the four note-table frequencies all lie in `(0, 44100]`. -/
lemma handle_event_freq_range (e : Event) (s : SynthState) (r : Bool)
    (hf0 : 0 < s.frequency) (hf : s.frequency ≤ (SAMPLE_RATE : ℝ)) :
    0 < ((handle_event e s r).1).frequency ∧
    ((handle_event e s r).1).frequency ≤ (SAMPLE_RATE : ℝ) := by
  have hpos : ∀ x : ℝ, 0 < FREQUENCY_A4 * (2 : ℝ) ^ x := by
    intro x
    show (0 : ℝ) < 440 * (2 : ℝ) ^ x
    positivity
  have h2 : ∀ x : ℝ, x ≤ 1 → FREQUENCY_A4 * (2 : ℝ) ^ x ≤ (SAMPLE_RATE : ℝ) := by
    intro x hx
    have hle : (2 : ℝ) ^ x ≤ 2 := by
      have h := (Real.rpow_le_rpow_left_iff (by norm_num : (1 : ℝ) < 2)).mpr hx
      simpa [Real.rpow_one] using h
    have hp : (0 : ℝ) < (2 : ℝ) ^ x := Real.rpow_pos_of_pos (by norm_num) x
    show (440 : ℝ) * (2 : ℝ) ^ x ≤ (SAMPLE_RATE : ℝ)
    have hR : ((SAMPLE_RATE : ℕ) : ℝ) = 44100 := by norm_num [SAMPLE_RATE]
    rw [hR]
    nlinarith
  cases e with
  | quit => simpa [handle_event] using And.intro hf0 hf
  | keyUp k => simpa [handle_event] using And.intro hf0 hf
  | keyDown k =>
    cases k with
    | a =>
      constructor
      · show (0 : ℝ) < 440
        norm_num
      · show (440 : ℝ) ≤ ((SAMPLE_RATE : ℕ) : ℝ)
        norm_num [SAMPLE_RATE]
    | s =>
      exact ⟨by simpa [handle_event] using hpos ((1 : ℝ) / 12),
        by simpa [handle_event] using h2 ((1 : ℝ) / 12) (by norm_num)⟩
    | d =>
      exact ⟨by simpa [handle_event] using hpos ((2 : ℝ) / 12),
        by simpa [handle_event] using h2 ((2 : ℝ) / 12) (by norm_num)⟩
    | f =>
      exact ⟨by simpa [handle_event] using hpos ((3 : ℝ) / 12),
        by simpa [handle_event] using h2 ((3 : ℝ) / 12) (by norm_num)⟩
    | escape => simpa [handle_event] using And.intro hf0 hf
    | other => simpa [handle_event] using And.intro hf0 hf

/-- Claim C1: while the oscillator is gated off, every `generate` call
emits 0 for each requested sample and leaves the phase accumulator
unchanged (whatever the allocation and push outcomes), and no key event —
note-on or note-off — ever resets the phase; hence gating off and later
back on, with or without intervening `generate` calls while off, resumes
synthesis at exactly the phase value that was current when gating went
off. -/
theorem claim_C1 : ∀ (a p : Bool) (ph f : ℝ) (nm : String) (sg ur q n : ℕ),
    (generate_audio_samples a p ⟨false, ph, f, nm, sg, ur⟩ q n).1.phase = ph ∧
    producedSamples (generate_audio_samples true p ⟨false, ph, f, nm, sg, ur⟩ q n).2.2 = List.replicate n 0 ∧
    (∀ (e : Event) (s : SynthState) (r : Bool), ((handle_event e s r).1).phase = s.phase) ∧
    (∀ (evs : List Event) (s : SynthState) (r : Bool), ((processEvents evs s r).1).phase = s.phase) := by
  intro a p ph f nm sg ur q n
  refine ⟨?_, ?_, fun e s r => (handle_event_preserves e s r).1,
    fun evs s r => (processEvents_preserves evs s r).1⟩
  · cases a <;> cases p <;> simp [generate_audio_samples, genLoop_off]
  · cases p <;> simp [generate_audio_samples, genLoop_off, producedSamples]

/-- Claim C5 (counterexample): when the internal buffer allocation fails,
`generate(1)` produces zero samples, not the requested one — the claim's
unconditional "never fewer" and "no error conditions" fail on the
`malloc` failure path (sound.c lines 197-202). -/
theorem claim_C5_counterexample :
    (producedSamples (generate_audio_samples false true ⟨true, 0, 440, "A", 0, 0⟩ 0 1).2.2).length = 0 := by
  simp [generate_audio_samples, producedSamples]

/-- Claim C5 (amended): provided the internal sample-buffer allocation
succeeds, `generate(count)` synthesizes exactly `count` signed 16-bit
samples — never fewer, never more — and `generate(0)` produces an empty
sequence, whatever the push outcome. -/
theorem claim_C5_amended : ∀ (p : Bool) (s : SynthState) (q n : ℕ),
    (producedSamples (generate_audio_samples true p s q n).2.2).length = n ∧
    producedSamples (generate_audio_samples true p s q 0).2.2 = [] := by
  intro p s q n
  constructor
  · cases p <;> simp [generate_audio_samples, producedSamples, genLoop_length]
  · cases p <;> simp [generate_audio_samples, producedSamples, genLoop]

/-- Claim C8: every sample value `AMPLITUDE * sin(phase)` has magnitude at
most the amplitude ceiling 28000; every integer sample the generation loop
emits (gated on or off) has magnitude at most 28000; and 28000 is strictly
below `2^15`, so the conversion to a signed 16-bit integer never
overflows. -/
theorem claim_C8 : ∀ (b : Bool) (inc p : ℝ) (n : ℕ),
    (∀ ph : ℝ, |(AMPLITUDE : ℝ) * Real.sin ph| ≤ 28000) ∧
    ((genLoop b inc n p).2).Forall (fun v : ℤ => |v| ≤ 28000) ∧
    (AMPLITUDE : ℤ) = 28000 ∧ (28000 : ℤ) < 2 ^ 15 := by
  intro b inc p n
  exact ⟨abs_amp_sin_le, genLoop_forall_abs b inc n p, by norm_num [AMPLITUDE], by norm_num⟩

/-- Claim C10: if the buffer allocation inside `generate` fails, the call
returns with nothing pushed (queued depth unchanged) and the whole
oscillator state — phase, gating, counters — unchanged; gating is never
changed by `generate`; and the generated-samples counter is incremented
(by the sample count) exactly on push success, so a failed push leaves it
unchanged. -/
theorem claim_C10 : ∀ (a p : Bool) (s : SynthState) (q n : ℕ),
    generate_audio_samples false p s q n = (s, q, GenOutcome.allocFailed) ∧
    (generate_audio_samples a p s q n).1.note_on = s.note_on ∧
    (generate_audio_samples true false s q n).1.samples_generated = s.samples_generated ∧
    (generate_audio_samples true false s q n).2.1 = q ∧
    (generate_audio_samples true true s q n).1.samples_generated = s.samples_generated + n := by
  intro a p s q n
  refine ⟨by simp [generate_audio_samples], (generate_fields a p s q n).2.1, ?_, ?_, ?_⟩ <;>
    simp [generate_audio_samples]

/-- Claim C2 (counterexample): the claim quantifies over every positive
frequency, but for frequency 88200 Hz (= 2 × sample rate) the per-sample
increment is `4π` and the single wraparound subtraction leaves the phase
at exactly `2π` after one gated-on sample starting from phase 0 — the
accumulator reaches `2π`, leaving `[0, 2π)`. -/
theorem claim_C2_counterexample :
    2 * Real.pi ≤ (generate_audio_samples true true ⟨true, 0, 88200, "A", 0, 0⟩ 0 1).1.phase := by
  have hπ := Real.pi_pos
  have hphase : (generate_audio_samples true true (⟨true, 0, 88200, "A", 0, 0⟩ : SynthState) 0 1).1.phase
      = phase_wrap (0 + 2 * Real.pi * 88200 / (SAMPLE_RATE : ℝ)) := by
    simp [generate_audio_samples, genLoop]
  have hx : (0 : ℝ) + 2 * Real.pi * 88200 / (SAMPLE_RATE : ℝ) = 4 * Real.pi := by
    have hR : ((SAMPLE_RATE : ℕ) : ℝ) = 44100 := by norm_num [SAMPLE_RATE]
    rw [hR]
    field_simp
    ring
  have hw : phase_wrap ((0 : ℝ) + 2 * Real.pi * 88200 / (SAMPLE_RATE : ℝ)) = 2 * Real.pi := by
    rw [hx]
    unfold phase_wrap
    rw [if_pos (by linarith)]
    ring
  rw [hphase, hw]

/-- Claim C2 (amended): for every positive frequency that is at most the
sample rate (so the per-sample increment `2π·f/44100` lies in `(0, 2π]` —
in particular for all four note-table frequencies, which event dispatch
keeps inside `(0, 44100]`), and for every sequence of `generate` calls,
the phase accumulator stays inside `[0, 2π)`, starting from its initial
value 0. -/
theorem claim_C2_amended : ∀ (calls : List (Bool × Bool × ℕ)) (s : SynthState) (q : ℕ),
    0 < s.frequency → s.frequency ≤ (SAMPLE_RATE : ℝ) →
    0 ≤ s.phase → s.phase < 2 * Real.pi →
    (initState.phase = 0 ∧ 0 ≤ initState.phase ∧ initState.phase < 2 * Real.pi) ∧
    (0 ≤ (runGenerates calls s q).1.phase ∧ (runGenerates calls s q).1.phase < 2 * Real.pi) ∧
    (∀ (e : Event) (s2 : SynthState) (r : Bool),
      0 < s2.frequency → s2.frequency ≤ (SAMPLE_RATE : ℝ) →
      0 < ((handle_event e s2 r).1).frequency ∧
      ((handle_event e s2 r).1).frequency ≤ (SAMPLE_RATE : ℝ)) := by
  intro calls s q hf0 hf h0 h1
  have hπ := Real.pi_pos
  refine ⟨⟨rfl, le_refl _, by simpa [initState] using by linarith⟩, ?_, ?_⟩
  · exact runGenerates_phase_mem calls s q hf0 hf h0 h1
  · exact fun e s2 r h2 h3 => handle_event_freq_range e s2 r h2 h3

/-- Claim C2 (witness): the amended theorem applied to one gated-on
one-sample call at 440 Hz starting from phase 0. -/
theorem claim_C2_witness :
    0 ≤ (runGenerates [(true, true, 1)] ⟨true, 0, 440, "A", 0, 0⟩ 0).1.phase ∧
    (runGenerates [(true, true, 1)] ⟨true, 0, 440, "A", 0, 0⟩ 0).1.phase < 2 * Real.pi :=
  (claim_C2_amended [(true, true, 1)] ⟨true, 0, 440, "A", 0, 0⟩ 0
    (show (0 : ℝ) < 440 by norm_num)
    (show (440 : ℝ) ≤ ((SAMPLE_RATE : ℕ) : ℝ) by norm_num [SAMPLE_RATE])
    (show (0 : ℝ) ≤ 0 from le_refl 0)
    (show (0 : ℝ) < 2 * Real.pi by positivity)).2.1

/-- Claim C3 (counterexample): with queued depth 0 (below the low-water
mark) but the buffer allocation failing, the tick generates nothing and
pushes nothing — no batch is generated and pushed and no push outcome
(success or failure) is recorded, only the allocation failure. -/
theorem claim_C3_counterexample :
    feeder_tick false true ⟨true, 0, 440, "A", 0, 0⟩ 0 =
      (⟨true, 0, 440, "A", 0, 0⟩, 0, some GenOutcome.allocFailed) := by
  simp [feeder_tick, generate_audio_samples]

/-- Claim C3 (amended): the tick is level-triggered and purely
queue-depth driven: at or above the low-water mark of 8192 bytes it is a
no-op (no generation, no push, state unchanged); below the mark
generation is attempted and an outcome is always recorded — allocation
failure, or a push outcome (success or failure) of the fixed-size
2048-sample batch; a successful push adds exactly 4096 bytes
(2048 16-bit samples) to the queue, and a failed push discards the batch
leaving the queue unchanged. -/
theorem claim_C3_amended : ∀ (a p : Bool) (s : SynthState) (q : ℕ),
    (8192 ≤ q → feeder_tick a p s q = (s, q, none)) ∧
    (q < 8192 → ((feeder_tick a p s q).2.2).isSome = true) ∧
    (q < 8192 → feeder_tick false p s q = (s, q, some GenOutcome.allocFailed)) ∧
    (q < 8192 →
      (producedSamples (((feeder_tick true p s q).2.2).getD GenOutcome.allocFailed)).length = 2048) ∧
    (q < 8192 → (feeder_tick true true s q).2.1 = q + 4096) ∧
    (q < 8192 → (feeder_tick true false s q).2.1 = q) := by
  intro a p s q
  refine ⟨fun h => ?_, fun h => ?_, fun h => ?_, fun h => ?_, fun h => ?_, fun h => ?_⟩
  · unfold feeder_tick
    rw [if_neg (not_lt.mpr h)]
  · unfold feeder_tick
    rw [if_pos h]
    cases a <;> cases p <;> simp [generate_audio_samples]
  · unfold feeder_tick
    rw [if_pos h]
    simp [generate_audio_samples]
  · unfold feeder_tick
    rw [if_pos h]
    cases p <;> simp [generate_audio_samples, producedSamples, genLoop_length]
  · unfold feeder_tick
    rw [if_pos h]
    simp [generate_audio_samples]
  · unfold feeder_tick
    rw [if_pos h]
    simp [generate_audio_samples]

/-- Claim C3 (witness): the amended theorem applied at queued depth 9000
(at/above the mark: no-op) and at queued depth 0 (below the mark: a
successful push adds 4096 bytes). -/
theorem claim_C3_witness :
    feeder_tick true true ⟨true, 0, 440, "A", 0, 0⟩ 9000 = (⟨true, 0, 440, "A", 0, 0⟩, 9000, none) ∧
    (feeder_tick true true ⟨true, 0, 440, "A", 0, 0⟩ 0).2.1 = 4096 := by
  constructor
  · exact (claim_C3_amended true true ⟨true, 0, 440, "A", 0, 0⟩ 9000).1 (by norm_num)
  · have h := (claim_C3_amended true true ⟨true, 0, 440, "A", 0, 0⟩ 0).2.2.2.2.1 (by norm_num)
    simpa using h

/-- Claim C4: the underrun counter is monotonically non-decreasing (the
underrun check never decreases it, sample generation never touches it,
and a whole control-loop iteration never decreases it); it is incremented
by exactly one per underrun check observing queued depth zero while a
note is gated on — never otherwise, and never per sample; the check runs
only on every 60th control-loop iteration (otherwise the counter is
untouched, showing it is decoupled from the fill policy); and the check
alters no playback state (phase, gating, frequency, samples counter). -/
theorem claim_C4 : ∀ (obs : ℤ) (s : SynthState),
    ((validate_audio_stream obs s).underruns =
      if obs = 0 ∧ s.note_on = true then s.underruns + 1 else s.underruns) ∧
    s.underruns ≤ (validate_audio_stream obs s).underruns ∧
    (validate_audio_stream obs s).phase = s.phase ∧
    (validate_audio_stream obs s).note_on = s.note_on ∧
    (validate_audio_stream obs s).frequency = s.frequency ∧
    (validate_audio_stream obs s).samples_generated = s.samples_generated ∧
    (∀ (a p : Bool) (s2 : SynthState) (q n : ℕ),
      (generate_audio_samples a p s2 q n).1.underruns = s2.underruns) ∧
    (∀ (evs : List Event) (a p : Bool) (st : LoopState) (r : Bool),
      st.synth.underruns ≤ ((loop_body evs a p st r).1).synth.underruns) ∧
    (∀ (evs : List Event) (a p : Bool) (st : LoopState) (r : Bool),
      (st.frame_count + 1) % 60 ≠ 0 →
      ((loop_body evs a p st r).1).synth.underruns = st.synth.underruns) := by
  intro obs s
  have hv := validate_fields obs s
  refine ⟨?_, hv.2.2.2.2, hv.1, hv.2.1, hv.2.2.1, hv.2.2.2.1,
    fun a p s2 q n => (generate_fields a p s2 q n).2.2.2, ?_, ?_⟩
  · unfold validate_audio_stream
    split_ifs <;> rfl
  · intro evs a p st r
    have he := (processEvents_preserves evs st.synth r).2.1
    have hf := feeder_tick_underruns a p (processEvents evs st.synth r).1 st.queued
    unfold loop_body
    dsimp only
    by_cases h : (st.frame_count + 1) % 60 = 0
    · rw [if_pos h]
      have hval := (validate_fields
        ((feeder_tick a p (processEvents evs st.synth r).1 st.queued).2.1 : ℤ)
        (feeder_tick a p (processEvents evs st.synth r).1 st.queued).1).2.2.2.2
      omega
    · rw [if_neg h]
      omega
  · intro evs a p st r h
    have he := (processEvents_preserves evs st.synth r).2.1
    have hf := feeder_tick_underruns a p (processEvents evs st.synth r).1 st.queued
    unfold loop_body
    dsimp only
    rw [if_neg h]
    omega

/-- Claim C4 (witness): the theorem applied at a loop iteration whose
frame counter (0 → 1) is not a multiple of 60: the underrun counter is
untouched. -/
theorem claim_C4_witness :
    ((loop_body [] true true ⟨⟨true, 0, 440, "A", 0, 0⟩, 9000, 0⟩ true).1).synth.underruns = 0 :=
  (claim_C4 0 ⟨true, 0, 440, "A", 0, 0⟩).2.2.2.2.2.2.2.2 [] true true
    ⟨⟨true, 0, 440, "A", 0, 0⟩, 9000, 0⟩ true (by decide)

/-- Claim C6 (counterexample): the key labelled 'D' does not reach the
note three semitones up from A — its frequency `440·2^(2/12)` is strictly
below `440·2^(3/12)`.  (The ≈493.88 Hz figure in the claim is the
two-semitone frequency the code actually assigns; three semitones up
would be ≈523.25 Hz.) -/
theorem claim_C6_counterexample :
    ((handle_event (Event.keyDown Key.d) ⟨false, 0, 440, "A", 0, 0⟩ true).1).frequency
      < FREQUENCY_A4 * (2 : ℝ) ^ ((3 : ℝ) / 12) := by
  have hlt : (2 : ℝ) ^ ((2 : ℝ) / 12) < (2 : ℝ) ^ ((3 : ℝ) / 12) :=
    (Real.rpow_lt_rpow_left_iff (by norm_num : (1 : ℝ) < 2)).mpr (by norm_num)
  have h440 : (0 : ℝ) < FREQUENCY_A4 := by norm_num [FREQUENCY_A4]
  show FREQUENCY_A4 * (2 : ℝ) ^ ((2 : ℝ) / 12) < FREQUENCY_A4 * (2 : ℝ) ^ ((3 : ℝ) / 12)
  exact mul_lt_mul_of_pos_left hlt h440

/-- Claim C6 (amended): the note table maps the four trigger keys A, S,
D, F to frequencies `440·2^(n/12)` for semitone offsets `n = 0, 1, 2, 3`
respectively; in particular the key labelled 'D' is two semitones up from
A at approximately 493.88 Hz (strictly between 493.87 and 493.89), the
note displayed as "B". -/
theorem claim_C6_amended : ∀ (s : SynthState) (r : Bool),
    ((handle_event (Event.keyDown Key.a) s r).1).frequency = FREQUENCY_A4 * (2 : ℝ) ^ ((0 : ℝ) / 12) ∧
    ((handle_event (Event.keyDown Key.s) s r).1).frequency = FREQUENCY_A4 * (2 : ℝ) ^ ((1 : ℝ) / 12) ∧
    ((handle_event (Event.keyDown Key.d) s r).1).frequency = FREQUENCY_A4 * (2 : ℝ) ^ ((2 : ℝ) / 12) ∧
    ((handle_event (Event.keyDown Key.f) s r).1).frequency = FREQUENCY_A4 * (2 : ℝ) ^ ((3 : ℝ) / 12) ∧
    ((handle_event (Event.keyDown Key.d) s r).1).note_name = "B" ∧
    (49387 / 100 : ℝ) < ((handle_event (Event.keyDown Key.d) s r).1).frequency ∧
    ((handle_event (Event.keyDown Key.d) s r).1).frequency < (49389 / 100 : ℝ) := by
  intro s r
  have hb := two_rpow_sixth_bounds
  refine ⟨?_, rfl, rfl, rfl, rfl, ?_, ?_⟩
  · show FREQUENCY_A4 = FREQUENCY_A4 * (2 : ℝ) ^ ((0 : ℝ) / 12)
    rw [show ((0 : ℝ) / 12) = 0 by norm_num, Real.rpow_zero, mul_one]
  · show (49387 / 100 : ℝ) < FREQUENCY_A4 * (2 : ℝ) ^ ((2 : ℝ) / 12)
    have : FREQUENCY_A4 = (440 : ℝ) := rfl
    rw [this]
    nlinarith [hb.1]
  · show FREQUENCY_A4 * (2 : ℝ) ^ ((2 : ℝ) / 12) < (49389 / 100 : ℝ)
    have : FREQUENCY_A4 = (440 : ℝ) := rfl
    rw [this]
    nlinarith [hb.2]

/-- Claim C7: at most one note is gated on at any time — the state holds
a single (frequency, name, gating) cell; a key-down of each mapped note
key overwrites that cell with its table entry regardless of the previous
state (so the last key-down wins, demonstrated for an arbitrary key
followed by 'D'), and every key-up, whatever key was released, sets
gating off. -/
theorem claim_C7 : ∀ (s : SynthState) (r : Bool) (k : Key),
    (((handle_event (Event.keyDown Key.a) s r).1).frequency = FREQUENCY_A4 ∧
      ((handle_event (Event.keyDown Key.a) s r).1).note_name = "A" ∧
      ((handle_event (Event.keyDown Key.a) s r).1).note_on = true) ∧
    (((handle_event (Event.keyDown Key.s) s r).1).frequency = FREQUENCY_A4 * (2 : ℝ) ^ ((1 : ℝ) / 12) ∧
      ((handle_event (Event.keyDown Key.s) s r).1).note_name = "A#" ∧
      ((handle_event (Event.keyDown Key.s) s r).1).note_on = true) ∧
    (((handle_event (Event.keyDown Key.d) s r).1).frequency = FREQUENCY_A4 * (2 : ℝ) ^ ((2 : ℝ) / 12) ∧
      ((handle_event (Event.keyDown Key.d) s r).1).note_name = "B" ∧
      ((handle_event (Event.keyDown Key.d) s r).1).note_on = true) ∧
    (((handle_event (Event.keyDown Key.f) s r).1).frequency = FREQUENCY_A4 * (2 : ℝ) ^ ((3 : ℝ) / 12) ∧
      ((handle_event (Event.keyDown Key.f) s r).1).note_name = "C" ∧
      ((handle_event (Event.keyDown Key.f) s r).1).note_on = true) ∧
    ((handle_event (Event.keyUp k) s r).1).note_on = false ∧
    (((processEvents [Event.keyDown k, Event.keyDown Key.d] s r).1).frequency = FREQUENCY_A4 * (2 : ℝ) ^ ((2 : ℝ) / 12) ∧
      ((processEvents [Event.keyDown k, Event.keyDown Key.d] s r).1).note_name = "B" ∧
      ((processEvents [Event.keyDown k, Event.keyDown Key.d] s r).1).note_on = true) := by
  intro s r k
  refine ⟨⟨rfl, rfl, rfl⟩, ⟨rfl, rfl, rfl⟩, ⟨rfl, rfl, rfl⟩, ⟨rfl, rfl, rfl⟩, rfl, ?_⟩
  cases k <;> exact ⟨rfl, rfl, rfl⟩

/-- Claim C9: `main` ignores its command-line arguments; its exit code is
0 exactly when every initialization step (SDL init, audio device, audio
stream, stream binding, window, renderer) succeeds — a failed
`SDL_ResumeAudioDevice` is only logged — and -1 exactly when any of those
fails; no other exit code is produced; and on every path each acquired
resource is released before exit (explicit release calls plus `SDL_Quit`,
which shuts down all initialized subsystems). -/
theorem claim_C9 : ∀ (env : InitEnv) (args : List String),
    main_model env args = main_model env [] ∧
    ((main_model env args).exitCode = 0 ∨ (main_model env args).exitCode = -1) ∧
    ((main_model env args).exitCode = -1 ↔
      ¬ (env.sdlInitOk = true ∧ env.openDeviceOk = true ∧ env.createStreamOk = true ∧
        env.bindOk = true ∧ env.createWindowOk = true ∧ env.createRendererOk = true)) ∧
    (∀ res : Res, res ∈ (main_model env args).acquired ↔ res ∈ (main_model env args).released) := by
  intro env args
  have harg : main_model env args = main_model env [] := rfl
  rw [harg]
  obtain ⟨a, b, c, d, e, f, g⟩ := env
  cases a <;> cases b <;> cases c <;> cases d <;> cases e <;> cases f <;> cases g <;>
    exact ⟨rfl, by decide, by decide, by decide⟩

/-- Claim C9 (witness): the theorem applied to the all-success
environment (exit 0) and to an SDL-init-failure environment (exit -1). -/
theorem claim_C9_witness :
    (main_model ⟨true, true, true, true, true, true, true⟩ []).exitCode = 0 ∧
    (main_model ⟨false, true, true, true, true, true, true⟩ []).exitCode = -1 := by
  constructor
  · rcases (claim_C9 ⟨true, true, true, true, true, true, true⟩ []).2.1 with h | h
    · exact h
    · exact absurd h (by decide)
  · exact ((claim_C9 ⟨false, true, true, true, true, true, true⟩ []).2.2.1).mpr (by decide)

end SoundC
